import Mathlib

/-!
Verification of the content transfer-encoding layer of an intercepting
proxy (`netlib/encoding.py`) and of the flow-content download handler
(`libmproxy/web/app.py`).

Python values of type `str`/`bytes` and `unicode` are embedded as the
`Payload` type below; byte strings are lists of naturals.  The external
compression libraries (`gzip`, `zlib`, `brotli`) and the charset codec
facility (`codecs`) are not part of the repository; they are modelled
from the specification as executable container formats that satisfy the
documented contracts (framed streams with header and checksum for the
zlib-wrapped form, a raw stream lacking that envelope for raw deflate).
Everything in `encoding.py` itself — the single-slot cache, the registry
dispatch with `KeyError` fallback, the cacheable-scheme set, and the
uniform `ValueError` wrapping — is translated directly from the source.
-/

/-- A Python payload: a byte string (`bytes` / Python-2 `str`) or a
text string (`unicode`). -/
inductive Payload where
  | bytes : List Nat → Payload
  | text : String → Payload
deriving DecidableEq, Repr

/-- `isinstance(p, bytes)`. -/
def Payload.isBytes : Payload → Bool
  | .bytes _ => true
  | .text _ => false

/-- A raised Python exception, identified by the name of its type
(`type(e).__name__`) and its message. -/
structure PyErr where
  name : String
  msg : String
deriving DecidableEq, Repr

/-- Fuel-indexed helper for `natToVarint`; the fuel always suffices
because a number's base-128 digit count never exceeds the number. -/
def natToVarintAux : Nat → Nat → List Nat
  | 0, n => [n % 128]
  | fuel + 1, n =>
    if n < 128 then [n] else (128 + n % 128) :: natToVarintAux fuel (n / 128)

/-- Modelled from the spec: self-delimiting base-128 length marker used
by the container models of the external compression libraries (low
digit first; a final digit is below 128, continuation digits carry
an offset of 128). -/
def natToVarint (n : Nat) : List Nat := natToVarintAux n n

/-- Parse a base-128 length marker, returning the value and the rest of
the input. -/
def parseVarint : List Nat → Option (Nat × List Nat)
  | [] => none
  | d :: rest =>
    if d < 128 then some (d, rest)
    else
      match parseVarint rest with
      | some (m, rest') => some ((d - 128) + 128 * m, rest')
      | none => none

/-- Parse a length-framed block: a length marker followed by exactly
that many payload bytes; returns the payload and the remaining input. -/
def parseBlock (c : List Nat) : Option (List Nat × List Nat) :=
  match parseVarint c with
  | some (n, rest) =>
    if n ≤ rest.length then some (rest.take n, rest.drop n) else none
  | none => none

theorem parseVarint_natToVarintAux (f : Nat) :
    ∀ n, n ≤ f → ∀ rest, parseVarint (natToVarintAux f n ++ rest) = some (n, rest) := by
  induction f with
  | zero =>
    intro n hn rest
    interval_cases n
    simp [natToVarintAux, parseVarint]
  | succ f ih =>
    intro n hn rest
    by_cases h : n < 128
    · rw [natToVarintAux, if_pos h]
      simp [parseVarint, h]
    · rw [natToVarintAux, if_neg h]
      have hd : ¬ (128 + n % 128 < 128) := by omega
      have hlt : n / 128 ≤ f := by
        have := Nat.div_lt_self (show 0 < n by omega) (show 1 < 128 by omega)
        omega
      have heq : 128 + n % 128 - 128 + 128 * (n / 128) = n := by
        have := Nat.mod_add_div n 128
        omega
      simp only [List.cons_append, parseVarint, if_neg hd, List.append_eq,
        ih (n / 128) hlt, heq]

theorem parseVarint_natToVarint (n : Nat) (rest : List Nat) :
    parseVarint (natToVarint n ++ rest) = some (n, rest) :=
  parseVarint_natToVarintAux n n le_rfl rest

theorem parseBlock_frame (b rest : List Nat) :
    parseBlock (natToVarint b.length ++ b ++ rest) = some (b, rest) := by
  rw [List.append_assoc]
  simp only [parseBlock, parseVarint_natToVarint]
  have hle : b.length ≤ (b ++ rest).length := by
    simp [List.length_append]
  rw [if_pos hle, List.take_left, List.drop_left]

/-! ### Models of the external compression libraries

The repository delegates the actual compression work to the external
`gzip`, `zlib` and `brotli` libraries.  They are modelled here as
executable container formats: each stream carries a recognizable
header/marker, a length-framed copy of the payload (a stored block),
and — for the zlib-wrapped form — a four-byte checksum trailer, as the
specification describes. -/

/-- Modelled from the spec: the four-byte Adler-style checksum trailer
of a zlib-wrapped stream (external `zlib` library). -/
def adler32 (b : List Nat) : List Nat :=
  [(1 + b.sum) % 65521 % 256, (1 + b.sum) % 65521 / 256,
   b.length % 256, b.length / 256 % 256]

theorem adler32_length (b : List Nat) : (adler32 b).length = 4 := rfl

/-- Modelled from the spec: a raw deflate stream — no zlib header, no
checksum trailer.  A final stored block: marker byte `1`, then a length
marker, then the literal data. -/
def rawDeflate (b : List Nat) : List Nat :=
  1 :: natToVarint b.length ++ b

/-- Modelled from the spec: raw inflation (`zlib.decompress(c, -15)`
uses this with an empty remainder requirement relaxed, as the one-shot
API discards input past the end of the stream).  Returns the stored
payload and the unconsumed trailing input. -/
def inflateRawPre (c : List Nat) : Option (List Nat × List Nat) :=
  match c with
  | 1 :: rest => parseBlock rest
  | _ => none

/-- Modelled from the spec: `zlib.compress` — always the fully wrapped
form: two-byte header, deflate body, checksum trailer. -/
def zlib_compress (b : List Nat) : List Nat :=
  120 :: 156 :: (rawDeflate b ++ adler32 b)

/-- Modelled from the spec: `zlib.decompress(c)` — requires the two-byte
zlib header and a checksum trailer matching the inflated body; raises
`zlib.error` (type name `"error"`) otherwise. -/
def zlib_decompress (c : List Nat) : Except PyErr (List Nat) :=
  match c with
  | 120 :: 156 :: rest =>
    match inflateRawPre rest with
    | some (body, trailer) =>
      if trailer = adler32 body then .ok body else .error ⟨"error", "bad checksum"⟩
    | none => .error ⟨"error", "bad deflate data"⟩
  | _ => .error ⟨"error", "bad zlib header"⟩

/-- Modelled from the spec: `zlib.decompress(c, -15)` — interpret the
bytes as a raw deflate stream (negative window size: no header, no
checksum); trailing input after the end of the stream is discarded. -/
def zlib_decompress_raw (c : List Nat) : Except PyErr (List Nat) :=
  match inflateRawPre c with
  | some (body, _) => .ok body
  | none => .error ⟨"error", "bad raw deflate data"⟩

/-- Modelled from the spec: the gzip container (external `gzip`
library): two magic bytes `0x1f 0x8b`, then a stored member.  A read
from a corrupt container raises `IOError`. -/
def gzip_compress (b : List Nat) : List Nat :=
  31 :: 139 :: (natToVarint b.length ++ b)

/-- Modelled from the spec: reading back a gzip container
(`gzip.GzipFile(fileobj=BytesIO(c)).read()`). -/
def gzip_decompress (c : List Nat) : Except PyErr (List Nat) :=
  match c with
  | 31 :: 139 :: rest =>
    match parseBlock rest with
    | some (body, []) => .ok body
    | _ => .error ⟨"IOError", "Not a gzipped file"⟩
  | _ => .error ⟨"IOError", "Not a gzipped file"⟩

/-- Modelled from the spec: the compressed-generic (brotli) block
format (external `brotli` library): marker byte `206`, then a stored
block.  Failures raise `brotli.error` (type name `"error"`). -/
def brotli_compress (b : List Nat) : List Nat :=
  206 :: (natToVarint b.length ++ b)

/-- Modelled from the spec: `brotli.decompress`. -/
def brotli_decompress (c : List Nat) : Except PyErr (List Nat) :=
  match c with
  | 206 :: rest =>
    match parseBlock rest with
    | some (body, []) => .ok body
    | _ => .error ⟨"error", "BrotliDecompress failed"⟩
  | _ => .error ⟨"error", "BrotliDecompress failed"⟩

theorem inflateRawPre_rawDeflate (b rest : List Nat) :
    inflateRawPre (rawDeflate b ++ rest) = some (b, rest) := by
  have h := parseBlock_frame b rest
  rw [List.append_assoc] at h
  simp only [rawDeflate, inflateRawPre, List.cons_append, List.append_assoc, h]

theorem zlib_roundtrip (b : List Nat) :
    zlib_decompress (zlib_compress b) = .ok b := by
  simp only [zlib_compress, zlib_decompress, inflateRawPre_rawDeflate, if_true]

theorem zlib_raw_roundtrip (b : List Nat) :
    zlib_decompress_raw (rawDeflate b) = .ok b := by
  have h := inflateRawPre_rawDeflate b []
  rw [List.append_nil] at h
  simp only [zlib_decompress_raw, h]

theorem gzip_roundtrip (b : List Nat) :
    gzip_decompress (gzip_compress b) = .ok b := by
  have h := parseBlock_frame b ([] : List Nat)
  rw [List.append_nil] at h
  simp only [gzip_compress, gzip_decompress, h]

theorem brotli_roundtrip (b : List Nat) :
    brotli_decompress (brotli_compress b) = .ok b := by
  have h := parseBlock_frame b ([] : List Nat)
  rw [List.append_nil] at h
  simp only [brotli_compress, brotli_decompress, h]

/-- A raw deflate stream never carries the 120-byte zlib header, so the
wrapped-stream interpretation always rejects it. -/
theorem zlib_decompress_rawDeflate (b : List Nat) :
    zlib_decompress (rawDeflate b) = .error ⟨"error", "bad zlib header"⟩ := by
  simp only [rawDeflate, List.cons_append, zlib_decompress]

/-! ### The codec implementations of `encoding.py` -/

/-- `identity(content)`: returns content unchanged (never raises). -/
def identity (content : Payload) : Except PyErr Payload := .ok content

/-- Lift a byte-level codec to a `Payload` codec: the underlying
libraries reject text (`unicode`) input with a `TypeError`. -/
def onBytes (f : List Nat → Except PyErr (List Nat)) : Payload → Except PyErr Payload
  | .bytes b => (f b).map .bytes
  | .text _ => .error ⟨"TypeError", "a bytes-like object is required"⟩

/-- `decode_gzip(content)`. -/
def decode_gzip : Payload → Except PyErr Payload := onBytes gzip_decompress

/-- `encode_gzip(content)`. -/
def encode_gzip : Payload → Except PyErr Payload :=
  onBytes (fun b => .ok (gzip_compress b))

/-- `decode_brotli(content) = brotli.decompress(content)`. -/
def decode_brotli : Payload → Except PyErr Payload := onBytes brotli_decompress

/-- `encode_brotli(content) = brotli.compress(content)`. -/
def encode_brotli : Payload → Except PyErr Payload :=
  onBytes (fun b => .ok (brotli_compress b))

/-- The body of `decode_deflate`: `zlib.decompress(content)`, and on
`zlib.error` the retry `zlib.decompress(content, -15)`. -/
def decode_deflate_bytes (content : List Nat) : Except PyErr (List Nat) :=
  match zlib_decompress content with
  | .ok d => .ok d
  | .error e => if e.name = "error" then zlib_decompress_raw content else .error e

/-- `decode_deflate(content)`: wrapped-stream attempt first, raw
deflate retry on `zlib.error`. -/
def decode_deflate : Payload → Except PyErr Payload := onBytes decode_deflate_bytes

/-- `encode_deflate(content) = zlib.compress(content)` — always the
fully wrapped form with header and checksum. -/
def encode_deflate : Payload → Except PyErr Payload :=
  onBytes (fun b => .ok (zlib_compress b))

/-! ### Model of the generic charset codec facility (`codecs`) -/

/-- Text from bytes below 128. -/
def asciiOfBytes (b : List Nat) : String := String.mk (b.map Char.ofNat)

/-- Bytes of a text string's code points. -/
def bytesOfText (s : String) : List Nat := s.toList.map Char.toNat

/-- Modelled from the spec: `codecs.decode(b, encoding, errors)` — the
open-ended charset family, represented by an ASCII model of `"utf-8"`:
bytes below 128 decode to the corresponding characters; malformed
input follows the error policy (`strict` raises `UnicodeDecodeError`,
`replace` substitutes a marker, `ignore` drops); other charset names
raise `LookupError`. -/
def codecs_decode (p : Payload) (encoding errors : String) : Except PyErr Payload :=
  if encoding = "utf-8" then
    match p with
    | .bytes b =>
      if b.all (fun x => x < 128) then .ok (.text (asciiOfBytes b))
      else if errors = "replace" then
        .ok (.text (asciiOfBytes (b.map fun x => if x < 128 then x else 63)))
      else if errors = "ignore" then
        .ok (.text (asciiOfBytes (b.filter (fun x => x < 128))))
      else .error ⟨"UnicodeDecodeError", "invalid start byte"⟩
    | .text _ => .error ⟨"TypeError", "a bytes-like object is required"⟩
  else .error ⟨"LookupError", "unknown encoding"⟩

/-- Modelled from the spec: `codecs.encode(s, encoding, errors)`,
symmetric to `codecs_decode`. -/
def codecs_encode (p : Payload) (encoding errors : String) : Except PyErr Payload :=
  if encoding = "utf-8" then
    match p with
    | .text s =>
      if (s.toList).all (fun c => c.toNat < 128) then .ok (.bytes (bytesOfText s))
      else if errors = "replace" then
        .ok (.bytes ((s.toList).map fun c => if c.toNat < 128 then c.toNat else 63))
      else if errors = "ignore" then
        .ok (.bytes (((s.toList).filter (fun c => c.toNat < 128)).map Char.toNat))
      else .error ⟨"UnicodeEncodeError", "ordinal not in range"⟩
    | .bytes _ => .error ⟨"TypeError", "a text object is required"⟩
  else .error ⟨"LookupError", "unknown encoding"⟩

/-! ### The codec registry -/

/-- The `custom_decode` table: name-to-function lookup; a missing key
is `none` (Python: `KeyError`). -/
def custom_decode (encoding : String) : Option (Payload → Except PyErr Payload) :=
  if encoding = "identity" then some identity
  else if encoding = "gzip" then some decode_gzip
  else if encoding = "deflate" then some decode_deflate
  else if encoding = "br" then some decode_brotli
  else none

/-- The `custom_encode` table. -/
def custom_encode (encoding : String) : Option (Payload → Except PyErr Payload) :=
  if encoding = "identity" then some identity
  else if encoding = "gzip" then some encode_gzip
  else if encoding = "deflate" then some encode_deflate
  else if encoding = "br" then some encode_brotli
  else none

/-! ### The decode / encode entry points -/

/-- A hexadecimal digit character. -/
def hexDigitChar (n : Nat) : Char :=
  ("0123456789abcdef".toList).getD n '0'

/-- One byte of the Python `repr` of a byte string, in escaped form. -/
def byteRepr (n : Nat) : String :=
  String.mk ['\\', 'x', hexDigitChar (n / 16 % 16), hexDigitChar (n % 16)]

/-- Model of the Python `repr` builtin on payloads: a quoted byte
string with escaped bytes, or a `u`-prefixed quoted text string. -/
def pyRepr : Payload → String
  | .bytes b => "'" ++ String.join (b.map byteRepr) ++ "'"
  | .text s => "u'" ++ s ++ "'"

/-- `repr` of an encoding-name string. -/
def pyReprStr (s : String) : String := "'" ++ s ++ "'"

/-- `CachedDecode = namedtuple("CachedDecode", "encoded encoding errors decoded")`.
The initial module-level value `CachedDecode(None, None, None, None)`
can never match a `bytes` payload (in Python, `None == b` is false), so
it is embedded as the `none` cache state and a populated tuple as
`some`. -/
structure CachedDecode where
  encoded : Payload
  encoding : String
  errors : String
  decoded : Payload
deriving DecidableEq, Repr

/-- `encoding in ("gzip", "deflate", "br")` — the cacheable compression
schemes. -/
def cacheableEncoding (encoding : String) : Prop :=
  encoding = "gzip" ∨ encoding = "deflate" ∨ encoding = "br"

instance (encoding : String) : Decidable (cacheableEncoding encoding) :=
  inferInstanceAs (Decidable (_ ∨ _ ∨ _))

/-- The inner `try` body of `decode`:
`custom_decode[encoding](encoded)`, falling back to
`codecs.decode(encoded, encoding, errors)` on a `KeyError` (normally a
missing registry entry; a `KeyError` escaping the codec itself would
also be caught). -/
def decodeAttempt (encoded : Payload) (encoding errors : String) : Except PyErr Payload :=
  match custom_decode encoding with
  | some f =>
    match f encoded with
    | .ok d => .ok d
    | .error e =>
      if e.name = "KeyError" then codecs_decode encoded encoding errors else .error e
  | none => codecs_decode encoded encoding errors

/-- The inner `try` body of `encode`, symmetric to `decodeAttempt`. -/
def encodeAttempt (decoded : Payload) (encoding errors : String) : Except PyErr Payload :=
  match custom_encode encoding with
  | some f =>
    match f decoded with
    | .ok d => .ok d
    | .error e =>
      if e.name = "KeyError" then codecs_encode decoded encoding errors else .error e
  | none => codecs_encode decoded encoding errors

/-- The `ValueError` raised by `decode` when the underlying codec or
charset facility fails. -/
def wrapDecodeError (e : PyErr) (encoded : Payload) (encoding : String) : PyErr :=
  ⟨"ValueError",
    e.name ++ " when decoding " ++ (pyRepr encoded).take 10 ++ " with " ++
      pyReprStr encoding⟩

/-- The `ValueError` raised by `encode` on failure. -/
def wrapEncodeError (e : PyErr) (decoded : Payload) (encoding : String) : PyErr :=
  ⟨"ValueError",
    e.name ++ " when encoding " ++ (pyRepr decoded).take 10 ++ " with " ++
      pyReprStr encoding⟩

/-- The `cached` test of `decode`: `isinstance(encoded, bytes) and
_cache.encoded == encoded and _cache.encoding == encoding and
_cache.errors == errors`. -/
def cacheHitDecode (cache : Option CachedDecode) (encoded : Payload)
    (encoding errors : String) : Bool :=
  encoded.isBytes &&
    match cache with
    | some c =>
      decide (c.encoded = encoded) && decide (c.encoding = encoding) &&
        decide (c.errors = errors)
    | none => false

/-- The `cached` test of `encode`, keyed on the decoded payload. -/
def cacheHitEncode (cache : Option CachedDecode) (decoded : Payload)
    (encoding errors : String) : Bool :=
  decoded.isBytes &&
    match cache with
    | some c =>
      decide (c.decoded = decoded) && decide (c.encoding = encoding) &&
        decide (c.errors = errors)
    | none => false

/-- The cache-miss path of `decode`: run the codec (with charset
fallback), store the result in the cache slot for the three cacheable
compression schemes, and wrap any failure in a `ValueError`. -/
def decodeMiss (cache : Option CachedDecode) (encoded : Payload)
    (encoding errors : String) : Except PyErr Payload × Option CachedDecode :=
  match decodeAttempt encoded encoding errors with
  | .ok decoded =>
    if cacheableEncoding encoding then
      (.ok decoded, some ⟨encoded, encoding, errors, decoded⟩)
    else (.ok decoded, cache)
  | .error e => (.error (wrapDecodeError e encoded encoding), cache)

/-- One call of `decode(encoded, encoding, errors)` with the
process-wide `_cache` passed and returned explicitly; a raised
`ValueError` is embedded as an `Except.error` result. -/
def decode (cache : Option CachedDecode) (encoded : Payload)
    (encoding errors : String) : Except PyErr Payload × Option CachedDecode :=
  match cache with
  | some c =>
    if encoded.isBytes ∧ c.encoded = encoded ∧ c.encoding = encoding ∧ c.errors = errors then
      (.ok c.decoded, cache)
    else decodeMiss cache encoded encoding errors
  | none => decodeMiss cache encoded encoding errors

/-- The cache-miss path of `encode`; the stored tuple is
`CachedDecode(encoded_result, encoding, errors, decoded_input)`. -/
def encodeMiss (cache : Option CachedDecode) (decoded : Payload)
    (encoding errors : String) : Except PyErr Payload × Option CachedDecode :=
  match encodeAttempt decoded encoding errors with
  | .ok encoded =>
    if cacheableEncoding encoding then
      (.ok encoded, some ⟨encoded, encoding, errors, decoded⟩)
    else (.ok encoded, cache)
  | .error e => (.error (wrapEncodeError e decoded encoding), cache)

/-- One call of `encode(decoded, encoding, errors)` with the cache slot
passed and returned explicitly. -/
def encode (cache : Option CachedDecode) (decoded : Payload)
    (encoding errors : String) : Except PyErr Payload × Option CachedDecode :=
  match cache with
  | some c =>
    if decoded.isBytes ∧ c.decoded = decoded ∧ c.encoding = encoding ∧ c.errors = errors then
      (.ok c.encoded, cache)
    else encodeMiss cache decoded encoding errors
  | none => encodeMiss cache decoded encoding errors

/-- The cache states reachable from the initial all-`None` slot by any
sequence of `decode` / `encode` calls. -/
inductive Reachable : Option CachedDecode → Prop where
  | init : Reachable none
  | decodeStep (cache : Option CachedDecode) (p : Payload) (n e : String) :
      Reachable cache → Reachable (decode cache p n e).2
  | encodeStep (cache : Option CachedDecode) (p : Payload) (n e : String) :
      Reachable cache → Reachable (encode cache p n e).2

/-! ### Computation lemmas for the registry dispatch -/

theorem onBytes_bytes (f : List Nat → Except PyErr (List Nat)) (b : List Nat) :
    onBytes f (.bytes b) = (f b).map .bytes := rfl

theorem custom_decode_gzip : custom_decode "gzip" = some decode_gzip := rfl

theorem custom_decode_deflate : custom_decode "deflate" = some decode_deflate := rfl

theorem custom_decode_br : custom_decode "br" = some decode_brotli := rfl

theorem gzip_decompress_error_name (c : List Nat) (err : PyErr)
    (h : gzip_decompress c = .error err) : err.name = "IOError" := by
  unfold gzip_decompress at h
  split at h
  · split at h <;> first | (cases h; rfl) | cases h
  · cases h; rfl

theorem zlib_decompress_error_name (c : List Nat) (err : PyErr)
    (h : zlib_decompress c = .error err) : err.name = "error" := by
  unfold zlib_decompress at h
  split at h
  · split at h
    · split at h <;> first | (cases h; rfl) | cases h
    · cases h; rfl
  · cases h; rfl

theorem zlib_decompress_raw_error_name (c : List Nat) (err : PyErr)
    (h : zlib_decompress_raw c = .error err) : err.name = "error" := by
  unfold zlib_decompress_raw at h
  split at h <;> first | (cases h; rfl) | cases h

theorem decode_deflate_bytes_error_name (c : List Nat) (err : PyErr)
    (h : decode_deflate_bytes c = .error err) : err.name = "error" := by
  unfold decode_deflate_bytes at h
  split at h
  · simp_all
  · rename_i e he
    have hn := zlib_decompress_error_name c e he
    rw [if_pos hn] at h
    exact zlib_decompress_raw_error_name c err h

theorem brotli_decompress_error_name (c : List Nat) (err : PyErr)
    (h : brotli_decompress c = .error err) : err.name = "error" := by
  unfold brotli_decompress at h
  split at h
  · split at h <;> first | (cases h; rfl) | cases h
  · cases h; rfl

theorem decodeAttempt_identity (p : Payload) (e : String) :
    decodeAttempt p "identity" e = .ok p := rfl

theorem encodeAttempt_identity (p : Payload) (e : String) :
    encodeAttempt p "identity" e = .ok p := rfl

theorem decodeAttempt_gzip_bytes (b : List Nat) (e : String) :
    decodeAttempt (.bytes b) "gzip" e = (gzip_decompress b).map .bytes := by
  unfold decodeAttempt
  rw [custom_decode_gzip]
  show (match (gzip_decompress b).map Payload.bytes with
    | .ok d => Except.ok d
    | .error er =>
      if er.name = "KeyError" then codecs_decode (.bytes b) "gzip" e
      else .error er) = (gzip_decompress b).map Payload.bytes
  cases h : gzip_decompress b with
  | ok d => rfl
  | error err =>
    have hn := gzip_decompress_error_name b err h
    simp [Except.map, hn]

theorem decodeAttempt_deflate_bytes (b : List Nat) (e : String) :
    decodeAttempt (.bytes b) "deflate" e = (decode_deflate_bytes b).map .bytes := by
  unfold decodeAttempt
  rw [custom_decode_deflate]
  show (match (decode_deflate_bytes b).map Payload.bytes with
    | .ok d => Except.ok d
    | .error er =>
      if er.name = "KeyError" then codecs_decode (.bytes b) "deflate" e
      else .error er) = (decode_deflate_bytes b).map Payload.bytes
  cases h : decode_deflate_bytes b with
  | ok d => rfl
  | error err =>
    have hn := decode_deflate_bytes_error_name b err h
    simp [Except.map, hn]

theorem decodeAttempt_br_bytes (b : List Nat) (e : String) :
    decodeAttempt (.bytes b) "br" e = (brotli_decompress b).map .bytes := by
  unfold decodeAttempt
  rw [custom_decode_br]
  show (match (brotli_decompress b).map Payload.bytes with
    | .ok d => Except.ok d
    | .error er =>
      if er.name = "KeyError" then codecs_decode (.bytes b) "br" e
      else .error er) = (brotli_decompress b).map Payload.bytes
  cases h : brotli_decompress b with
  | ok d => rfl
  | error err =>
    have hn := brotli_decompress_error_name b err h
    simp [Except.map, hn]

theorem decodeAttempt_gzip_text (t : String) (e : String) :
    decodeAttempt (.text t) "gzip" e =
      .error ⟨"TypeError", "a bytes-like object is required"⟩ := rfl

theorem decodeAttempt_deflate_text (t : String) (e : String) :
    decodeAttempt (.text t) "deflate" e =
      .error ⟨"TypeError", "a bytes-like object is required"⟩ := rfl

theorem decodeAttempt_br_text (t : String) (e : String) :
    decodeAttempt (.text t) "br" e =
      .error ⟨"TypeError", "a bytes-like object is required"⟩ := rfl

theorem encodeAttempt_gzip_bytes (b : List Nat) (e : String) :
    encodeAttempt (.bytes b) "gzip" e = .ok (.bytes (gzip_compress b)) := rfl

theorem encodeAttempt_deflate_bytes (b : List Nat) (e : String) :
    encodeAttempt (.bytes b) "deflate" e = .ok (.bytes (zlib_compress b)) := rfl

theorem encodeAttempt_br_bytes (b : List Nat) (e : String) :
    encodeAttempt (.bytes b) "br" e = .ok (.bytes (brotli_compress b)) := rfl

theorem encodeAttempt_gzip_text (t : String) (e : String) :
    encodeAttempt (.text t) "gzip" e =
      .error ⟨"TypeError", "a bytes-like object is required"⟩ := rfl

theorem encodeAttempt_deflate_text (t : String) (e : String) :
    encodeAttempt (.text t) "deflate" e =
      .error ⟨"TypeError", "a bytes-like object is required"⟩ := rfl

theorem encodeAttempt_br_text (t : String) (e : String) :
    encodeAttempt (.text t) "br" e =
      .error ⟨"TypeError", "a bytes-like object is required"⟩ := rfl

/-! ### Round trips at the dispatch level, and the cache invariant -/

theorem zlib_decompress_rawDeflate_append (b rest : List Nat) :
    zlib_decompress (rawDeflate b ++ rest) = .error ⟨"error", "bad zlib header"⟩ := by
  simp only [rawDeflate, List.cons_append, zlib_decompress]

theorem zlib_decompress_raw_append (b rest : List Nat) :
    zlib_decompress_raw (rawDeflate b ++ rest) = .ok b := by
  simp only [zlib_decompress_raw, inflateRawPre_rawDeflate]

theorem decode_deflate_bytes_wrapped (b : List Nat) :
    decode_deflate_bytes (zlib_compress b) = .ok b := by
  simp only [decode_deflate_bytes, zlib_roundtrip]

theorem decode_deflate_bytes_raw (b : List Nat) :
    decode_deflate_bytes (rawDeflate b) = .ok b := by
  simp only [decode_deflate_bytes, zlib_decompress_rawDeflate, if_pos rfl]
  exact zlib_raw_roundtrip b

theorem decode_deflate_bytes_stripped (b : List Nat) :
    decode_deflate_bytes (rawDeflate b ++ adler32 b) = .ok b := by
  simp only [decode_deflate_bytes, zlib_decompress_rawDeflate_append, if_pos rfl]
  exact zlib_decompress_raw_append b (adler32 b)

theorem decodeAttempt_gzip_roundtrip (b : List Nat) (e : String) :
    decodeAttempt (.bytes (gzip_compress b)) "gzip" e = .ok (.bytes b) := by
  rw [decodeAttempt_gzip_bytes, gzip_roundtrip]
  rfl

theorem decodeAttempt_deflate_roundtrip (b : List Nat) (e : String) :
    decodeAttempt (.bytes (zlib_compress b)) "deflate" e = .ok (.bytes b) := by
  rw [decodeAttempt_deflate_bytes, decode_deflate_bytes_wrapped]
  rfl

theorem decodeAttempt_br_roundtrip (b : List Nat) (e : String) :
    decodeAttempt (.bytes (brotli_compress b)) "br" e = .ok (.bytes b) := by
  rw [decodeAttempt_br_bytes, brotli_roundtrip]
  rfl

theorem map_bytes_ok {r : Except PyErr (List Nat)} {d : Payload}
    (h : r.map Payload.bytes = .ok d) : ∃ x, r = .ok x ∧ d = .bytes x := by
  cases r with
  | ok x =>
    simp only [Except.map, Except.ok.injEq] at h
    exact ⟨x, rfl, h.symm⟩
  | error err => simp [Except.map] at h

/-- If a cacheable-scheme decode attempt succeeds, its input and output
are byte strings. -/
theorem decodeAttempt_cacheable_ok (n e : String) (hn : cacheableEncoding n)
    (p d : Payload) (h : decodeAttempt p n e = .ok d) :
    (∃ pb, p = .bytes pb) ∧ (∃ db, d = .bytes db) := by
  rcases hn with hn | hn | hn <;> subst hn
  · cases p with
    | text t => simp [decodeAttempt_gzip_text] at h
    | bytes b =>
      rw [decodeAttempt_gzip_bytes] at h
      obtain ⟨x, -, hd⟩ := map_bytes_ok h
      exact ⟨⟨b, rfl⟩, ⟨x, hd⟩⟩
  · cases p with
    | text t => simp [decodeAttempt_deflate_text] at h
    | bytes b =>
      rw [decodeAttempt_deflate_bytes] at h
      obtain ⟨x, -, hd⟩ := map_bytes_ok h
      exact ⟨⟨b, rfl⟩, ⟨x, hd⟩⟩
  · cases p with
    | text t => simp [decodeAttempt_br_text] at h
    | bytes b =>
      rw [decodeAttempt_br_bytes] at h
      obtain ⟨x, -, hd⟩ := map_bytes_ok h
      exact ⟨⟨b, rfl⟩, ⟨x, hd⟩⟩

/-- If a cacheable-scheme encode attempt succeeds, its input is a byte
string and decoding its output recovers the input exactly. -/
theorem encodeAttempt_cacheable_ok (n e : String) (hn : cacheableEncoding n)
    (p w : Payload) (h : encodeAttempt p n e = .ok w) :
    (∃ pb, p = .bytes pb) ∧ decodeAttempt w n e = .ok p := by
  rcases hn with hn | hn | hn <;> subst hn
  · cases p with
    | text t => simp [encodeAttempt_gzip_text] at h
    | bytes b =>
      rw [encodeAttempt_gzip_bytes] at h
      cases h
      exact ⟨⟨b, rfl⟩, decodeAttempt_gzip_roundtrip b e⟩
  · cases p with
    | text t => simp [encodeAttempt_deflate_text] at h
    | bytes b =>
      rw [encodeAttempt_deflate_bytes] at h
      cases h
      exact ⟨⟨b, rfl⟩, decodeAttempt_deflate_roundtrip b e⟩
  · cases p with
    | text t => simp [encodeAttempt_br_text] at h
    | bytes b =>
      rw [encodeAttempt_br_bytes] at h
      cases h
      exact ⟨⟨b, rfl⟩, decodeAttempt_br_roundtrip b e⟩

/-- Every populated, reachable cache entry stores byte strings for one
of the three cacheable schemes, and its decoded field is exactly what
a fresh decode of its encoded field computes. -/
def GoodEntry (c : CachedDecode) : Prop :=
  cacheableEncoding c.encoding ∧
  (∃ eb, c.encoded = .bytes eb) ∧ (∃ db, c.decoded = .bytes db) ∧
  decodeAttempt c.encoded c.encoding c.errors = .ok c.decoded

/-- Unfolding equation for `decode` on a populated cache slot. -/
theorem decode_some (c : CachedDecode) (p : Payload) (n e : String) :
    decode (some c) p n e =
      if p.isBytes ∧ c.encoded = p ∧ c.encoding = n ∧ c.errors = e then
        (.ok c.decoded, some c)
      else decodeMiss (some c) p n e := rfl

/-- Unfolding equation for `decode` on the empty cache slot. -/
theorem decode_none (p : Payload) (n e : String) :
    decode none p n e = decodeMiss none p n e := rfl

/-- Unfolding equation for `encode` on a populated cache slot. -/
theorem encode_some (c : CachedDecode) (p : Payload) (n e : String) :
    encode (some c) p n e =
      if p.isBytes ∧ c.decoded = p ∧ c.encoding = n ∧ c.errors = e then
        (.ok c.encoded, some c)
      else encodeMiss (some c) p n e := rfl

/-- Unfolding equation for `encode` on the empty cache slot. -/
theorem encode_none (p : Payload) (n e : String) :
    encode none p n e = encodeMiss none p n e := rfl

/-- The cache state left by the miss path of `decode` is well formed if
the previous one was. -/
theorem decodeMiss_good (cache : Option CachedDecode) (p : Payload) (n e : String)
    (ih : cache = none ∨ ∃ c, cache = some c ∧ GoodEntry c) :
    (decodeMiss cache p n e).2 = none ∨
      ∃ c, (decodeMiss cache p n e).2 = some c ∧ GoodEntry c := by
  unfold decodeMiss
  split
  · rename_i d h
    split
    · rename_i hc
      right
      exact ⟨⟨p, n, e, d⟩, rfl,
        hc, (decodeAttempt_cacheable_ok n e hc p d h).1,
        (decodeAttempt_cacheable_ok n e hc p d h).2, h⟩
    · exact ih
  · exact ih

/-- The cache state left by the miss path of `encode` is well formed if
the previous one was. -/
theorem encodeMiss_good (cache : Option CachedDecode) (p : Payload) (n e : String)
    (ih : cache = none ∨ ∃ c, cache = some c ∧ GoodEntry c) :
    (encodeMiss cache p n e).2 = none ∨
      ∃ c, (encodeMiss cache p n e).2 = some c ∧ GoodEntry c := by
  unfold encodeMiss
  split
  · rename_i w h
    split
    · rename_i hc
      right
      obtain ⟨⟨pb, hpb⟩, hdec⟩ := encodeAttempt_cacheable_ok n e hc p w h
      obtain ⟨⟨wb, hwb⟩, -⟩ := decodeAttempt_cacheable_ok n e hc w p hdec
      exact ⟨⟨w, n, e, p⟩, rfl, hc, ⟨wb, hwb⟩, ⟨pb, hpb⟩, hdec⟩
    · exact ih
  · exact ih

/-- Invariant: every reachable cache state is empty or holds a single
well-formed entry. -/
theorem reachable_good (st : Option CachedDecode) (h : Reachable st) :
    st = none ∨ ∃ c, st = some c ∧ GoodEntry c := by
  induction h with
  | init => exact Or.inl rfl
  | decodeStep cache p n e hr ih =>
    cases cache with
    | none => exact decodeMiss_good none p n e ih
    | some c =>
      rw [decode_some]
      split
      · exact ih
      · exact decodeMiss_good (some c) p n e ih
  | encodeStep cache p n e hr ih =>
    cases cache with
    | none => exact encodeMiss_good none p n e ih
    | some c =>
      rw [encode_some]
      split
      · exact ih
      · exact encodeMiss_good (some c) p n e ih

/-! ### Equation lemmas for the miss paths -/

theorem decodeMiss_ok (cache : Option CachedDecode) (p : Payload) (n e : String)
    (d : Payload) (h : decodeAttempt p n e = .ok d) (hc : cacheableEncoding n) :
    decodeMiss cache p n e = (.ok d, some ⟨p, n, e, d⟩) := by
  unfold decodeMiss
  split
  · rename_i d' h'
    rw [h] at h'
    cases h'
    rw [if_pos hc]
  · rename_i er h'
    rw [h] at h'
    cases h'

theorem decodeMiss_ok_uncached (cache : Option CachedDecode) (p : Payload) (n e : String)
    (d : Payload) (h : decodeAttempt p n e = .ok d) (hc : ¬ cacheableEncoding n) :
    decodeMiss cache p n e = (.ok d, cache) := by
  unfold decodeMiss
  split
  · rename_i d' h'
    rw [h] at h'
    cases h'
    rw [if_neg hc]
  · rename_i er h'
    rw [h] at h'
    cases h'

theorem decodeMiss_err (cache : Option CachedDecode) (p : Payload) (n e : String)
    (er : PyErr) (h : decodeAttempt p n e = .error er) :
    decodeMiss cache p n e = (.error (wrapDecodeError er p n), cache) := by
  unfold decodeMiss
  split
  · rename_i d' h'
    rw [h] at h'
    cases h'
  · rename_i er' h'
    rw [h] at h'
    cases h'
    rfl

theorem encodeMiss_ok (cache : Option CachedDecode) (p : Payload) (n e : String)
    (w : Payload) (h : encodeAttempt p n e = .ok w) (hc : cacheableEncoding n) :
    encodeMiss cache p n e = (.ok w, some ⟨w, n, e, p⟩) := by
  unfold encodeMiss
  split
  · rename_i w' h'
    rw [h] at h'
    cases h'
    rw [if_pos hc]
  · rename_i er h'
    rw [h] at h'
    cases h'

theorem encodeMiss_ok_uncached (cache : Option CachedDecode) (p : Payload) (n e : String)
    (w : Payload) (h : encodeAttempt p n e = .ok w) (hc : ¬ cacheableEncoding n) :
    encodeMiss cache p n e = (.ok w, cache) := by
  unfold encodeMiss
  split
  · rename_i w' h'
    rw [h] at h'
    cases h'
    rw [if_neg hc]
  · rename_i er h'
    rw [h] at h'
    cases h'

theorem encodeMiss_err (cache : Option CachedDecode) (p : Payload) (n e : String)
    (er : PyErr) (h : encodeAttempt p n e = .error er) :
    encodeMiss cache p n e = (.error (wrapEncodeError er p n), cache) := by
  unfold encodeMiss
  split
  · rename_i w' h'
    rw [h] at h'
    cases h'
  · rename_i er' h'
    rw [h] at h'
    cases h'
    rfl

/-- When the cache test fails, `decode` takes the miss path. -/
theorem decode_of_miss (cache : Option CachedDecode) (p : Payload) (n e : String)
    (h : cacheHitDecode cache p n e = false) :
    decode cache p n e = decodeMiss cache p n e := by
  cases cache with
  | none => exact decode_none p n e
  | some c =>
    have hnc : ¬ (Payload.isBytes p = true ∧ c.encoded = p ∧ c.encoding = n ∧ c.errors = e) := by
      intro hcond
      obtain ⟨h1, h2, h3, h4⟩ := hcond
      simp [cacheHitDecode, h1, h2, h3, h4] at h
    rw [decode_some, if_neg hnc]

/-- When the cache test fails, `encode` takes the miss path. -/
theorem encode_of_miss (cache : Option CachedDecode) (p : Payload) (n e : String)
    (h : cacheHitEncode cache p n e = false) :
    encode cache p n e = encodeMiss cache p n e := by
  cases cache with
  | none => exact encode_none p n e
  | some c =>
    have hnc : ¬ (Payload.isBytes p = true ∧ c.decoded = p ∧ c.encoding = n ∧ c.errors = e) := by
      intro hcond
      obtain ⟨h1, h2, h3, h4⟩ := hcond
      simp [cacheHitEncode, h1, h2, h3, h4] at h
    rw [encode_some, if_neg hnc]

/-- Python slicing `s[:10]` keeps at most ten characters. -/
theorem take_ten_length_le (s : String) : (s.take 10).length ≤ 10 := by
  rw [String.take_eq]
  show (s.1.take 10).length ≤ 10
  rw [List.length_take]
  exact Nat.min_le_left 10 s.1.length

/-! ### The flow-content download handler (`libmproxy/web/app.py`) -/

/-- The Python regex class `\w` over ASCII: letters, digits, underscore. -/
def isWordChar (c : Char) : Bool :=
  c.isAlpha || c.isDigit || c = '_'

/-- `re.sub(r"[^\w]", "", s)`: drop every non-word character. -/
def stripNonWord (s : String) : String :=
  String.mk (s.toList.filter isWordChar)

/-- The character class of the `Content-Disposition` filename pattern:
`[\w\" \.\-\(\)]`. -/
def cdAllowedChar (c : Char) : Bool :=
  isWordChar c || c = '"' || c = ' ' || c = '.' || c = '-' || c = '(' || c = ')'

/-- `re.search("filename=([\w\" \.\-\(\)]+)", cd)` followed by
`.group(1)`: scan left to right for an occurrence of `filename=`
followed by at least one allowed character, and return the maximal run
of allowed characters after it. -/
def searchFilename : List Char → Option String
  | [] => none
  | c :: rest =>
    if (c :: rest).take 9 = "filename=".toList then
      match (c :: rest).drop 9 with
      | d :: ds =>
        if cdAllowedChar d then some (String.mk (d :: ds.takeWhile cdAllowedChar))
        else searchFilename rest
      | [] => searchFilename rest
    else searchFilename rest

/-- Python `str.split` on a single-character separator (always returns
at least one piece). -/
def splitOnChar (sep : Char) : List Char → List (List Char)
  | [] => [[]]
  | c :: rest =>
    if c = sep then [] :: splitOnChar sep rest
    else
      match splitOnChar sep rest with
      | h :: t => (c :: h) :: t
      | [] => [[c]]

/-- `flow.request.path.split("?")[0].split("/")[-1]`. -/
def pathFilename (path : String) : String :=
  String.mk ((splitOnChar '/' ((splitOnChar '?' path.toList).headD [])).getLastD [])

/-- The parts of a captured HTTP message that `FlowContent.get` reads:
its (still-encoded) content and the `get_first` results for the two
headers it consults.  The headers container lives outside this
repository; its lookups are represented by their returned values. -/
structure WebMessage where
  content : List Nat
  contentEncoding : Option String
  contentDisposition : Option String
deriving DecidableEq, Repr

/-- The response assembled by a successful `FlowContent.get`. -/
structure ContentResponse where
  contentEncodingHeader : Option String
  contentDispositionHeader : String
  contentTypeHeader : String
  body : List Nat
deriving DecidableEq, Repr

/-- Outcome of `FlowContent.get`: an `APIError`-driven error response
(no content body is written), or a content response. -/
inductive FlowContentResult where
  | apiError (status : Nat) (msg : String)
  | streamed (resp : ContentResponse)
deriving DecidableEq, Repr

/-- `FlowContent.get(flow_id, message)` from `libmproxy/web/app.py`:
empty content raises `APIError(400)`; otherwise the raw, undecoded
content bytes are written, a sanitized `Content-Encoding` response
header is set when the message declares a truthy one, and a
`Content-Disposition` filename is derived from the message header or
the request path. -/
def FlowContent_get (msg : WebMessage) (requestPath : String) : FlowContentResult :=
  if msg.content = [] then .apiError 400 "No content."
  else
    let contentEncodingHeader : Option String :=
      match msg.contentEncoding with
      | some ce => if ce ≠ "" then some (stripNonWord ce) else none
      | none => none
    let filenameFromCD : Option String :=
      match msg.contentDisposition with
      | some cd => if cd ≠ "" then searchFilename cd.toList else none
      | none => none
    let filename :=
      match filenameFromCD with
      | some f => f
      | none => pathFilename requestPath
    let filename := String.mk (filename.toList.filter cdAllowedChar)
    .streamed ⟨contentEncodingHeader,
      "attachment; filename=" ++ filename,
      "application/text", msg.content⟩

/-! ### The claims -/

/-- C1: for every byte sequence `b` (including the empty sequence) and
every scheme `s` in {gzip, deflate, br}, encoding `b` under `s` and
decoding the result returns `b` exactly (both calls from the empty
cache slot). -/
theorem C1_compression_roundtrip (b : List Nat) (s : String)
    (hs : s = "gzip" ∨ s = "deflate" ∨ s = "br") :
    ∃ w : List Nat,
      (encode none (.bytes b) s "strict").1 = .ok (.bytes w) ∧
      (decode none (.bytes w) s "strict").1 = .ok (.bytes b) := by
  rcases hs with h | h | h <;> subst h
  · refine ⟨gzip_compress b, ?_, ?_⟩
    · rw [encode_none,
        encodeMiss_ok none _ _ _ _ (encodeAttempt_gzip_bytes b "strict") (Or.inl rfl)]
    · rw [decode_none,
        decodeMiss_ok none _ _ _ _ (decodeAttempt_gzip_roundtrip b "strict") (Or.inl rfl)]
  · refine ⟨zlib_compress b, ?_, ?_⟩
    · rw [encode_none,
        encodeMiss_ok none _ _ _ _ (encodeAttempt_deflate_bytes b "strict")
          (Or.inr (Or.inl rfl))]
    · rw [decode_none,
        decodeMiss_ok none _ _ _ _ (decodeAttempt_deflate_roundtrip b "strict")
          (Or.inr (Or.inl rfl))]
  · refine ⟨brotli_compress b, ?_, ?_⟩
    · rw [encode_none,
        encodeMiss_ok none _ _ _ _ (encodeAttempt_br_bytes b "strict")
          (Or.inr (Or.inr rfl))]
    · rw [decode_none,
        decodeMiss_ok none _ _ _ _ (decodeAttempt_br_roundtrip b "strict")
          (Or.inr (Or.inr rfl))]

/-- Witness for C1 at `b = [104, 105]`, `s = "gzip"`. -/
theorem C1_compression_roundtrip_witness :
    ∃ w : List Nat,
      (encode none (.bytes [104, 105]) "gzip" "strict").1 = .ok (.bytes w) ∧
      (decode none (.bytes w) "gzip" "strict").1 = .ok (.bytes [104, 105]) :=
  C1_compression_roundtrip [104, 105] "gzip" (Or.inl rfl)

/-- C3: a cache entry matching the payload, encoding name, and error
policy short-circuits `decode` (respectively `encode`): the cached
counterpart value is returned as-is, with the slot untouched, no matter
what the codecs would compute. -/
theorem C3_cache_hit_short_circuit (c : CachedDecode) (b : List Nat) (n e : String) :
    (c.encoded = .bytes b ∧ c.encoding = n ∧ c.errors = e →
      decode (some c) (.bytes b) n e = (.ok c.decoded, some c)) ∧
    (c.decoded = .bytes b ∧ c.encoding = n ∧ c.errors = e →
      encode (some c) (.bytes b) n e = (.ok c.encoded, some c)) := by
  constructor
  · rintro ⟨h1, h2, h3⟩
    rw [decode_some, if_pos ⟨rfl, h1, h2, h3⟩]
  · rintro ⟨h1, h2, h3⟩
    rw [encode_some, if_pos ⟨rfl, h1, h2, h3⟩]

/-- Witness for C3: the entry `[9] ↔ [8]` is served verbatim in both
directions — no gzip codec could relate these two payloads. -/
theorem C3_cache_hit_short_circuit_witness :
    decode (some ⟨.bytes [9], "gzip", "strict", .bytes [8]⟩) (.bytes [9]) "gzip" "strict" =
      (.ok (.bytes [8]), some ⟨.bytes [9], "gzip", "strict", .bytes [8]⟩) ∧
    encode (some ⟨.bytes [9], "gzip", "strict", .bytes [8]⟩) (.bytes [8]) "gzip" "strict" =
      (.ok (.bytes [9]), some ⟨.bytes [9], "gzip", "strict", .bytes [8]⟩) :=
  ⟨(C3_cache_hit_short_circuit ⟨.bytes [9], "gzip", "strict", .bytes [8]⟩ [9]
      "gzip" "strict").1 ⟨rfl, rfl, rfl⟩,
   (C3_cache_hit_short_circuit ⟨.bytes [9], "gzip", "strict", .bytes [8]⟩ [8]
      "gzip" "strict").2 ⟨rfl, rfl, rfl⟩⟩

theorem decodeAttempt_deflate_stripped (b : List Nat) (e : String) :
    decodeAttempt (.bytes (rawDeflate b ++ adler32 b)) "deflate" e = .ok (.bytes b) := by
  rw [decodeAttempt_deflate_bytes, decode_deflate_bytes_stripped]
  rfl

/-- C5: the deflate decoder tries the zlib-wrapped interpretation
first; on `zlib.error` it retries the same bytes as raw deflate (so it
fails only if both attempts fail); and the wrapped stream and its
header-stripped raw form decode to the same bytes. -/
theorem C5_deflate_decode_policy (c b d : List Nat) (er : PyErr) (e : String) :
    (zlib_decompress c = .ok d → decode_deflate_bytes c = .ok d) ∧
    (zlib_decompress c = .error er → decode_deflate_bytes c = zlib_decompress_raw c) ∧
    ((decode none (.bytes (zlib_compress b)) "deflate" e).1 = .ok (.bytes b) ∧
      (decode none (.bytes ((zlib_compress b).drop 2)) "deflate" e).1 = .ok (.bytes b)) := by
  refine ⟨?_, ?_, ?_, ?_⟩
  · intro h
    unfold decode_deflate_bytes
    rw [h]
  · intro h
    unfold decode_deflate_bytes
    rw [h]
    have hn := zlib_decompress_error_name c er h
    show (if er.name = "error" then zlib_decompress_raw c else Except.error er) =
      zlib_decompress_raw c
    rw [if_pos hn]
  · rw [decode_none,
      decodeMiss_ok none _ _ _ _ (decodeAttempt_deflate_roundtrip b e) (Or.inr (Or.inl rfl))]
  · have hdrop : (zlib_compress b).drop 2 = rawDeflate b ++ adler32 b := rfl
    rw [hdrop, decode_none,
      decodeMiss_ok none _ _ _ _ (decodeAttempt_deflate_stripped b e) (Or.inr (Or.inl rfl))]

/-- Witness for C5 at content `[5]` (wrapped attempt succeeding, raw
retry after a header failure, and both stream forms of `[5]`). -/
theorem C5_deflate_decode_policy_witness :
    decode_deflate_bytes (zlib_compress [5]) = .ok [5] ∧
    decode_deflate_bytes [1, 0] = zlib_decompress_raw [1, 0] ∧
    (decode none (.bytes (zlib_compress [5])) "deflate" "strict").1 = .ok (.bytes [5]) ∧
    (decode none (.bytes ((zlib_compress [5]).drop 2)) "deflate" "strict").1 = .ok (.bytes [5]) :=
  ⟨(C5_deflate_decode_policy (zlib_compress [5]) [5] [5] ⟨"error", ""⟩ "strict").1 rfl,
   (C5_deflate_decode_policy [1, 0] [5] [] ⟨"error", "bad zlib header"⟩ "strict").2.1 rfl,
   (C5_deflate_decode_policy [1, 0] [5] [] ⟨"error", ""⟩ "strict").2.2.1,
   (C5_deflate_decode_policy [1, 0] [5] [] ⟨"error", ""⟩ "strict").2.2.2⟩

/-- C9: with encoding `identity`, both `decode` and `encode` return the
input unchanged (from any reachable cache state; reachable entries are
never keyed by `identity`, so no stale hit can interfere). -/
theorem C9_identity_unchanged (st : Option CachedDecode) (hst : Reachable st)
    (p : Payload) (e : String) :
    decode st p "identity" e = (.ok p, st) ∧ encode st p "identity" e = (.ok p, st) := by
  have hid : ¬ cacheableEncoding "identity" := by decide
  rcases reachable_good st hst with h0 | ⟨c, hc, hg⟩
  · subst h0
    constructor
    · rw [decode_none, decodeMiss_ok_uncached none p _ e p (decodeAttempt_identity p e) hid]
    · rw [encode_none, encodeMiss_ok_uncached none p _ e p (encodeAttempt_identity p e) hid]
  · subst hc
    have hne : ¬ (c.encoding = "identity") := by
      intro hk
      exact hid (hk ▸ hg.1)
    constructor
    · have hnc : ¬ (Payload.isBytes p = true ∧ c.encoded = p ∧ c.encoding = "identity" ∧ c.errors = e) := by
        rintro ⟨-, -, h3, -⟩
        exact hne h3
      rw [decode_some, if_neg hnc,
        decodeMiss_ok_uncached _ p _ e p (decodeAttempt_identity p e) hid]
    · have hnc : ¬ (Payload.isBytes p = true ∧ c.decoded = p ∧ c.encoding = "identity" ∧ c.errors = e) := by
        rintro ⟨-, -, h3, -⟩
        exact hne h3
      rw [encode_some, if_neg hnc,
        encodeMiss_ok_uncached _ p _ e p (encodeAttempt_identity p e) hid]

/-- Witness for C9 at `p = bytes [7]` from the initial state. -/
theorem C9_identity_unchanged_witness :
    decode none (.bytes [7]) "identity" "strict" = (.ok (.bytes [7]), none) ∧
    encode none (.bytes [7]) "identity" "strict" = (.ok (.bytes [7]), none) :=
  C9_identity_unchanged none Reachable.init (.bytes [7]) "strict"

/-- C2: whenever the underlying codec or charset fallback fails, the
entry point catches the exception and re-raises a single `ValueError`
whose message carries the underlying failure's type name, the `repr` of
the input truncated to at most ten characters, and the encoding
identifier; the cache is untouched and no partial output escapes, so
callers never see a scheme-specific exception type. -/
theorem C2_error_wrapping (cache : Option CachedDecode) (p : Payload) (n e : String)
    (er : PyErr) :
    (decodeAttempt p n e = .error er → cacheHitDecode cache p n e = false →
      decode cache p n e =
        (.error ⟨"ValueError",
          er.name ++ " when decoding " ++ (pyRepr p).take 10 ++ " with " ++ pyReprStr n⟩,
         cache) ∧
      ((pyRepr p).take 10).length ≤ 10) ∧
    (encodeAttempt p n e = .error er → cacheHitEncode cache p n e = false →
      encode cache p n e =
        (.error ⟨"ValueError",
          er.name ++ " when encoding " ++ (pyRepr p).take 10 ++ " with " ++ pyReprStr n⟩,
         cache) ∧
      ((pyRepr p).take 10).length ≤ 10) := by
  constructor
  · intro h hm
    refine ⟨?_, take_ten_length_le (pyRepr p)⟩
    rw [decode_of_miss cache p n e hm, decodeMiss_err cache p n e er h]
    rfl
  · intro h hm
    refine ⟨?_, take_ten_length_le (pyRepr p)⟩
    rw [encode_of_miss cache p n e hm, encodeMiss_err cache p n e er h]
    rfl

/-- Witness for C2: a strict utf-8 decode of the invalid byte `0xff`
and an utf-8 encode of a bytes payload, both from the empty cache. -/
theorem C2_error_wrapping_witness :
    (decode none (.bytes [255]) "utf-8" "strict" =
      (.error ⟨"ValueError",
        "UnicodeDecodeError" ++ " when decoding " ++
          (pyRepr (.bytes [255])).take 10 ++ " with " ++ pyReprStr "utf-8"⟩,
       none) ∧
      ((pyRepr (.bytes [255])).take 10).length ≤ 10) ∧
    (encode none (.bytes [255]) "utf-8" "strict" =
      (.error ⟨"ValueError",
        "TypeError" ++ " when encoding " ++
          (pyRepr (.bytes [255])).take 10 ++ " with " ++ pyReprStr "utf-8"⟩,
       none) ∧
      ((pyRepr (.bytes [255])).take 10).length ≤ 10) :=
  ⟨(C2_error_wrapping none (.bytes [255]) "utf-8" "strict"
      ⟨"UnicodeDecodeError", "invalid start byte"⟩).1 rfl rfl,
   (C2_error_wrapping none (.bytes [255]) "utf-8" "strict"
      ⟨"TypeError", "a text object is required"⟩).2 rfl rfl⟩

/-- C8: after `decode(b1, "gzip")` and then `decode(b2, "gzip")` with
`b1 ≠ b2`, a further `decode(b1, "gzip")` produces the `b1`-derived
result again — identical to a fresh computation on `b1` — never the
stale `b2`-derived entry. -/
theorem C8_stale_entry_recomputed (b1 b2 : List Nat) (e : String) (hne : b1 ≠ b2) :
    (decode
        ((decode ((decode none (.bytes b1) "gzip" e).2) (.bytes b2) "gzip" e).2)
        (.bytes b1) "gzip" e).1 =
      (decode none (.bytes b1) "gzip" e).1 := by
  have hgz : cacheableEncoding "gzip" := Or.inl rfl
  cases h1 : decodeAttempt (.bytes b1) "gzip" e with
  | ok d1 =>
    have r1 : (decode none (.bytes b1) "gzip" e).1 = .ok d1 := by
      rw [decode_none, decodeMiss_ok none _ _ _ _ h1 hgz]
    have s1 : (decode none (.bytes b1) "gzip" e).2 =
        some ⟨.bytes b1, "gzip", e, d1⟩ := by
      rw [decode_none, decodeMiss_ok none _ _ _ _ h1 hgz]
    rw [r1, s1]
    have hm2 : ¬ (Payload.isBytes (.bytes b2) = true ∧
        (⟨.bytes b1, "gzip", e, d1⟩ : CachedDecode).encoded = .bytes b2 ∧
        (⟨.bytes b1, "gzip", e, d1⟩ : CachedDecode).encoding = "gzip" ∧
        (⟨.bytes b1, "gzip", e, d1⟩ : CachedDecode).errors = e) := by
      rintro ⟨-, hx, -, -⟩
      exact hne (Payload.bytes.inj hx)
    cases h2 : decodeAttempt (.bytes b2) "gzip" e with
    | ok d2 =>
      have s2 : (decode (some ⟨.bytes b1, "gzip", e, d1⟩) (.bytes b2) "gzip" e).2 =
          some ⟨.bytes b2, "gzip", e, d2⟩ := by
        rw [decode_some, if_neg hm2, decodeMiss_ok _ _ _ _ _ h2 hgz]
      rw [s2]
      have hm3 : ¬ (Payload.isBytes (.bytes b1) = true ∧
          (⟨.bytes b2, "gzip", e, d2⟩ : CachedDecode).encoded = .bytes b1 ∧
          (⟨.bytes b2, "gzip", e, d2⟩ : CachedDecode).encoding = "gzip" ∧
          (⟨.bytes b2, "gzip", e, d2⟩ : CachedDecode).errors = e) := by
        rintro ⟨-, hx, -, -⟩
        exact hne (Payload.bytes.inj hx).symm
      rw [decode_some, if_neg hm3, decodeMiss_ok _ _ _ _ _ h1 hgz]
    | error er2 =>
      have s2 : (decode (some ⟨.bytes b1, "gzip", e, d1⟩) (.bytes b2) "gzip" e).2 =
          some ⟨.bytes b1, "gzip", e, d1⟩ := by
        rw [decode_some, if_neg hm2, decodeMiss_err _ _ _ _ _ h2]
      rw [s2, decode_some, if_pos ⟨rfl, rfl, rfl, rfl⟩]
  | error er1 =>
    have r1 : (decode none (.bytes b1) "gzip" e).1 =
        .error (wrapDecodeError er1 (.bytes b1) "gzip") := by
      rw [decode_none, decodeMiss_err none _ _ _ _ h1]
    have s1 : (decode none (.bytes b1) "gzip" e).2 = none := by
      rw [decode_none, decodeMiss_err none _ _ _ _ h1]
    rw [r1, s1]
    cases h2 : decodeAttempt (.bytes b2) "gzip" e with
    | ok d2 =>
      have s2 : (decode none (.bytes b2) "gzip" e).2 =
          some ⟨.bytes b2, "gzip", e, d2⟩ := by
        rw [decode_none, decodeMiss_ok none _ _ _ _ h2 hgz]
      rw [s2]
      have hm3 : ¬ (Payload.isBytes (.bytes b1) = true ∧
          (⟨.bytes b2, "gzip", e, d2⟩ : CachedDecode).encoded = .bytes b1 ∧
          (⟨.bytes b2, "gzip", e, d2⟩ : CachedDecode).encoding = "gzip" ∧
          (⟨.bytes b2, "gzip", e, d2⟩ : CachedDecode).errors = e) := by
        rintro ⟨-, hx, -, -⟩
        exact hne (Payload.bytes.inj hx).symm
      rw [decode_some, if_neg hm3, decodeMiss_err _ _ _ _ _ h1]
    | error er2 =>
      have s2 : (decode none (.bytes b2) "gzip" e).2 = none := by
        rw [decode_none, decodeMiss_err none _ _ _ _ h2]
      rw [s2, decode_none, decodeMiss_err none _ _ _ _ h1]

/-- Witness for C8 at `b1 = [0]`, `b2 = [1]`. -/
theorem C8_stale_entry_recomputed_witness :
    (decode
        ((decode ((decode none (.bytes [0]) "gzip" "strict").2) (.bytes [1]) "gzip" "strict").2)
        (.bytes [0]) "gzip" "strict").1 =
      (decode none (.bytes [0]) "gzip" "strict").1 :=
  C8_stale_entry_recomputed [0] [1] "strict" (by decide)

/-- C6: the slot (at most one entry, by construction a single optional
tuple) is populated only by a successful `decode`/`encode` whose
encoding is one of gzip, deflate, br; calls with any other encoding —
`identity` or a charset fallback name — leave it untouched, so every
populated reachable slot is keyed by one of the three cacheable
compression schemes. -/
theorem C6_cache_population_invariant (st : Option CachedDecode) (p : Payload) (n e : String) :
    (Reachable st →
      st = none ∨ ∃ c, st = some c ∧
        (c.encoding = "gzip" ∨ c.encoding = "deflate" ∨ c.encoding = "br")) ∧
    ((decode st p n e).2 ≠ st →
      (n = "gzip" ∨ n = "deflate" ∨ n = "br") ∧ ∃ d, (decode st p n e).1 = .ok d) ∧
    ((encode st p n e).2 ≠ st →
      (n = "gzip" ∨ n = "deflate" ∨ n = "br") ∧ ∃ w, (encode st p n e).1 = .ok w) := by
  refine ⟨?_, ?_, ?_⟩
  · intro h
    rcases reachable_good st h with h0 | ⟨c, hc, hg⟩
    · exact Or.inl h0
    · exact Or.inr ⟨c, hc, hg.1⟩
  · intro hch
    cases st with
    | none =>
      cases hA : decodeAttempt p n e with
      | ok d =>
        by_cases hc : cacheableEncoding n
        · exact ⟨hc, d, by rw [decode_none, decodeMiss_ok none _ _ _ _ hA hc]⟩
        · exact absurd (by rw [decode_none, decodeMiss_ok_uncached none _ _ _ _ hA hc]) hch
      | error er =>
        exact absurd (by rw [decode_none, decodeMiss_err none _ _ _ _ hA]) hch
    | some c =>
      by_cases hcond : (Payload.isBytes p = true ∧ c.encoded = p ∧ c.encoding = n ∧ c.errors = e)
      · exact absurd (by rw [decode_some, if_pos hcond]) hch
      · cases hA : decodeAttempt p n e with
        | ok d =>
          by_cases hc : cacheableEncoding n
          · exact ⟨hc, d, by rw [decode_some, if_neg hcond, decodeMiss_ok _ _ _ _ _ hA hc]⟩
          · exact absurd
              (by rw [decode_some, if_neg hcond, decodeMiss_ok_uncached _ _ _ _ _ hA hc]) hch
        | error er =>
          exact absurd
            (by rw [decode_some, if_neg hcond, decodeMiss_err _ _ _ _ _ hA]) hch
  · intro hch
    cases st with
    | none =>
      cases hA : encodeAttempt p n e with
      | ok w =>
        by_cases hc : cacheableEncoding n
        · exact ⟨hc, w, by rw [encode_none, encodeMiss_ok none _ _ _ _ hA hc]⟩
        · exact absurd (by rw [encode_none, encodeMiss_ok_uncached none _ _ _ _ hA hc]) hch
      | error er =>
        exact absurd (by rw [encode_none, encodeMiss_err none _ _ _ _ hA]) hch
    | some c =>
      by_cases hcond : (Payload.isBytes p = true ∧ c.decoded = p ∧ c.encoding = n ∧ c.errors = e)
      · exact absurd (by rw [encode_some, if_pos hcond]) hch
      · cases hA : encodeAttempt p n e with
        | ok w =>
          by_cases hc : cacheableEncoding n
          · exact ⟨hc, w, by rw [encode_some, if_neg hcond, encodeMiss_ok _ _ _ _ _ hA hc]⟩
          · exact absurd
              (by rw [encode_some, if_neg hcond, encodeMiss_ok_uncached _ _ _ _ _ hA hc]) hch
        | error er =>
          exact absurd
            (by rw [encode_some, if_neg hcond, encodeMiss_err _ _ _ _ _ hA]) hch

/-- Witness for C6: the initial state, a cache-filling gzip decode, and
a cache-filling gzip encode. -/
theorem C6_cache_population_invariant_witness :
    ((none : Option CachedDecode) = none ∨ ∃ c, (none : Option CachedDecode) = some c ∧
      (c.encoding = "gzip" ∨ c.encoding = "deflate" ∨ c.encoding = "br")) ∧
    (("gzip" = "gzip" ∨ ("gzip" : String) = "deflate" ∨ ("gzip" : String) = "br") ∧
      ∃ d, (decode none (.bytes (gzip_compress [3])) "gzip" "strict").1 = .ok d) ∧
    (("gzip" = "gzip" ∨ ("gzip" : String) = "deflate" ∨ ("gzip" : String) = "br") ∧
      ∃ w, (encode none (.bytes [3]) "gzip" "strict").1 = .ok w) :=
  ⟨(C6_cache_population_invariant none (.bytes [3]) "gzip" "strict").1 Reachable.init,
   (C6_cache_population_invariant none (.bytes (gzip_compress [3])) "gzip" "strict").2.1
     (by decide),
   (C6_cache_population_invariant none (.bytes [3]) "gzip" "strict").2.2 (by decide)⟩

/-- C7: for a cacheable scheme, a successful decode followed
immediately by the matching encode returns exactly the original wire
bytes out of the cache slot — even where re-running the compressor
would emit different bytes (e.g. a raw deflate stream is returned raw,
not re-wrapped). -/
theorem C7_encode_returns_original_bytes (st : Option CachedDecode) (hst : Reachable st)
    (b : List Nat) (s e : String) (hs : s = "gzip" ∨ s = "deflate" ∨ s = "br")
    (d : Payload) (st' : Option CachedDecode)
    (h : decode st (.bytes b) s e = (.ok d, st')) :
    (encode st' d s e).1 = .ok (.bytes b) := by
  cases st with
  | none =>
    rw [decode_none] at h
    cases hA : decodeAttempt (.bytes b) s e with
    | ok d0 =>
      rw [decodeMiss_ok none _ _ _ _ hA hs, Prod.mk.injEq] at h
      obtain ⟨hd, hst'⟩ := h
      injection hd with hd
      subst hd
      subst hst'
      obtain ⟨-, db, hdb⟩ := decodeAttempt_cacheable_ok s e hs _ _ hA
      subst hdb
      rw [encode_some, if_pos ⟨rfl, rfl, rfl, rfl⟩]
    | error er =>
      rw [decodeMiss_err none _ _ _ _ hA, Prod.mk.injEq] at h
      cases h.1
  | some c =>
    by_cases hcond : (Payload.isBytes (.bytes b) = true ∧
        c.encoded = .bytes b ∧ c.encoding = s ∧ c.errors = e)
    · obtain ⟨-, h2, h3, h4⟩ := hcond
      rw [decode_some, if_pos ⟨rfl, h2, h3, h4⟩, Prod.mk.injEq] at h
      obtain ⟨hd, hst'⟩ := h
      injection hd with hd
      subst hd
      subst hst'
      rcases reachable_good _ hst with h0 | ⟨c', hc', hg⟩
      · cases h0
      · injection hc' with hcc
        subst hcc
        obtain ⟨-, -, ⟨db, hdb⟩, -⟩ := hg
        rw [encode_some, if_pos ⟨by rw [hdb]; rfl, rfl, h3, h4⟩, ← h2]
    · rw [decode_some, if_neg hcond] at h
      cases hA : decodeAttempt (.bytes b) s e with
      | ok d0 =>
        rw [decodeMiss_ok _ _ _ _ _ hA hs, Prod.mk.injEq] at h
        obtain ⟨hd, hst'⟩ := h
        injection hd with hd
        subst hd
        subst hst'
        obtain ⟨-, db, hdb⟩ := decodeAttempt_cacheable_ok s e hs _ _ hA
        subst hdb
        rw [encode_some, if_pos ⟨rfl, rfl, rfl, rfl⟩]
      | error er =>
        rw [decodeMiss_err _ _ _ _ _ hA, Prod.mk.injEq] at h
        cases h.1

/-- Witness for C7: the raw deflate stream `[1, 0]` decodes to the
empty payload; the immediate encode returns `[1, 0]` itself, although
`zlib.compress` would emit the wrapped form `[120, 156, 1, 0, 1, 0, 0, 0]`. -/
theorem C7_encode_returns_original_bytes_witness :
    (encode ((decode none (.bytes [1, 0]) "deflate" "strict").2)
        (.bytes []) "deflate" "strict").1 = .ok (.bytes [1, 0]) ∧
    zlib_compress [] = [120, 156, 1, 0, 1, 0, 0, 0] :=
  ⟨C7_encode_returns_original_bytes none Reachable.init [1, 0] "deflate" "strict"
      (Or.inr (Or.inl rfl)) (.bytes []) ((decode none (.bytes [1, 0]) "deflate" "strict").2)
      rfl,
   rfl⟩

/-- The returned value of the decode miss path never depends on the
incoming cache slot. -/
theorem decodeMiss_fst (cache cache' : Option CachedDecode) (p : Payload) (n e : String) :
    (decodeMiss cache p n e).1 = (decodeMiss cache' p n e).1 := by
  cases hA : decodeAttempt p n e with
  | ok d =>
    by_cases hc : cacheableEncoding n
    · rw [decodeMiss_ok cache _ _ _ _ hA hc, decodeMiss_ok cache' _ _ _ _ hA hc]
    · rw [decodeMiss_ok_uncached cache _ _ _ _ hA hc,
        decodeMiss_ok_uncached cache' _ _ _ _ hA hc]
  | error er =>
    rw [decodeMiss_err cache _ _ _ _ hA, decodeMiss_err cache' _ _ _ _ hA]

/-- The returned value of the encode miss path never depends on the
incoming cache slot. -/
theorem encodeMiss_fst (cache cache' : Option CachedDecode) (p : Payload) (n e : String) :
    (encodeMiss cache p n e).1 = (encodeMiss cache' p n e).1 := by
  cases hA : encodeAttempt p n e with
  | ok w =>
    by_cases hc : cacheableEncoding n
    · rw [encodeMiss_ok cache _ _ _ _ hA hc, encodeMiss_ok cache' _ _ _ _ hA hc]
    · rw [encodeMiss_ok_uncached cache _ _ _ _ hA hc,
        encodeMiss_ok_uncached cache' _ _ _ _ hA hc]
  | error er =>
    rw [encodeMiss_err cache _ _ _ _ hA, encodeMiss_err cache' _ _ _ _ hA]

/-- C4 counterexample: decoding the raw deflate stream `[1, 0]` fills
the cache; the following `encode` of the decoded payload returns the
cached raw wire form `[1, 0]`, while the same `encode` from the empty
cache returns the freshly compressed zlib-wrapped form — a different
value from a reachable cache state, refuting the claim for `encode`. -/
theorem C4_cache_dependence_counterexample :
    Reachable ((decode none (.bytes [1, 0]) "deflate" "strict").2) ∧
    (encode ((decode none (.bytes [1, 0]) "deflate" "strict").2)
        (.bytes []) "deflate" "strict").1 = .ok (.bytes [1, 0]) ∧
    (encode none (.bytes []) "deflate" "strict").1 =
      .ok (.bytes [120, 156, 1, 0, 1, 0, 0, 0]) ∧
    (encode ((decode none (.bytes [1, 0]) "deflate" "strict").2)
        (.bytes []) "deflate" "strict").1 ≠
      (encode none (.bytes []) "deflate" "strict").1 := by
  refine ⟨Reachable.decodeStep none (.bytes [1, 0]) "deflate" "strict" Reachable.init,
    rfl, rfl, ?_⟩
  intro hcontra
  have h1 : (encode ((decode none (.bytes [1, 0]) "deflate" "strict").2)
      (.bytes []) "deflate" "strict").1 = .ok (.bytes [1, 0]) := rfl
  have h2 : (encode none (.bytes []) "deflate" "strict").1 =
      .ok (.bytes [120, 156, 1, 0, 1, 0, 0, 0]) := rfl
  rw [h1, h2] at hcontra
  simp at hcontra

/-- C4 (amended): across every reachable cache state, `decode` returns
exactly what it returns from the empty cache; `encode` does too, except
that a matching entry makes it return the cached original wire form —
a value that still decodes (freshly) to the same payload. -/
theorem C4_cache_independence_amended (st : Option CachedDecode) (hst : Reachable st)
    (p : Payload) (n e : String) :
    (decode st p n e).1 = (decode none p n e).1 ∧
    ((encode st p n e).1 = (encode none p n e).1 ∨
      ∃ c, st = some c ∧ (encode st p n e).1 = .ok c.encoded ∧
        (decode none c.encoded n e).1 = .ok p) := by
  constructor
  · cases st with
    | none => rfl
    | some c =>
      by_cases hcond : (Payload.isBytes p = true ∧ c.encoded = p ∧ c.encoding = n ∧ c.errors = e)
      · obtain ⟨h1, h2, h3, h4⟩ := hcond
        rcases reachable_good _ hst with h0 | ⟨c', hc', hg⟩
        · cases h0
        · injection hc' with hcc
          subst hcc
          obtain ⟨hcac, -, -, hdec⟩ := hg
          subst h2
          subst h3
          subst h4
          rw [decode_some, if_pos ⟨h1, rfl, rfl, rfl⟩, decode_none,
            decodeMiss_ok none _ _ _ _ hdec hcac]
      · rw [decode_some, if_neg hcond, decode_none]
        exact decodeMiss_fst (some c) none p n e
  · cases st with
    | none => exact Or.inl rfl
    | some c =>
      by_cases hcond : (Payload.isBytes p = true ∧ c.decoded = p ∧ c.encoding = n ∧ c.errors = e)
      · right
        obtain ⟨h1, h2, h3, h4⟩ := hcond
        refine ⟨c, rfl, ?_, ?_⟩
        · rw [encode_some, if_pos ⟨h1, h2, h3, h4⟩]
        · rcases reachable_good _ hst with h0 | ⟨c', hc', hg⟩
          · cases h0
          · injection hc' with hcc
            subst hcc
            obtain ⟨hcac, -, -, hdec⟩ := hg
            subst h2
            subst h3
            subst h4
            rw [decode_none, decodeMiss_ok none _ _ _ _ hdec hcac]
      · left
        rw [encode_some, if_neg hcond, encode_none]
        exact encodeMiss_fst (some c) none p n e

/-- Witness for the amended C4 at the reachable state left by decoding
the raw deflate stream `[1, 0]`. -/
theorem C4_cache_independence_amended_witness :
    ((decode ((decode none (.bytes [1, 0]) "deflate" "strict").2)
        (.bytes [1, 0]) "deflate" "strict").1 =
      (decode none (.bytes [1, 0]) "deflate" "strict").1) ∧
    ((encode ((decode none (.bytes [1, 0]) "deflate" "strict").2)
        (.bytes [1, 0]) "deflate" "strict").1 =
      (encode none (.bytes [1, 0]) "deflate" "strict").1 ∨
      ∃ c, (decode none (.bytes [1, 0]) "deflate" "strict").2 = some c ∧
        (encode ((decode none (.bytes [1, 0]) "deflate" "strict").2)
            (.bytes [1, 0]) "deflate" "strict").1 = .ok c.encoded ∧
        (decode none c.encoded "deflate" "strict").1 = .ok (.bytes [1, 0])) :=
  C4_cache_independence_amended ((decode none (.bytes [1, 0]) "deflate" "strict").2)
    (Reachable.decodeStep none (.bytes [1, 0]) "deflate" "strict" Reachable.init)
    (.bytes [1, 0]) "deflate" "strict"

/-- C10 counterexample: a message whose headers declare an (empty)
`Content-Encoding` is streamed with *no* `Content-Encoding` response
header at all — the handler's truthiness check skips empty header
values, so the claim's "sets the response Content-Encoding header to
that name with all non-word characters stripped" fails there. -/
theorem C10_flow_content_counterexample :
    FlowContent_get ⟨[1], some "", none⟩ "p" =
      .streamed ⟨none, "attachment; filename=p", "application/text", [1]⟩ ∧
    (none : Option String) ≠ some (stripNonWord "") := by
  refine ⟨rfl, ?_⟩
  intro h
  cases h

/-- C10 (amended): empty content yields the 400 `APIError` and no
content body is streamed; otherwise the still-encoded bytes are
written verbatim, and when the message declares a *non-empty*
`Content-Encoding` the response announces that name with all non-word
characters stripped. -/
theorem C10_flow_content_amended (msg : WebMessage) (path : String) :
    (msg.content = [] → FlowContent_get msg path = .apiError 400 "No content.") ∧
    (msg.content ≠ [] →
      ∃ resp, FlowContent_get msg path = .streamed resp ∧
        resp.body = msg.content ∧
        (∀ ce, msg.contentEncoding = some ce → ce ≠ "" →
          resp.contentEncodingHeader = some (stripNonWord ce)) ∧
        (msg.contentEncoding = none → resp.contentEncodingHeader = none)) := by
  constructor
  · intro h
    unfold FlowContent_get
    rw [if_pos h]
  · intro h
    unfold FlowContent_get
    rw [if_neg h]
    refine ⟨_, rfl, rfl, ?_, ?_⟩
    · intro ce hce hne
      show (match msg.contentEncoding with
        | some ce' => if ce' ≠ "" then some (stripNonWord ce') else none
        | none => none) = some (stripNonWord ce)
      rw [hce]
      show (if ce ≠ "" then some (stripNonWord ce) else none) = some (stripNonWord ce)
      rw [if_pos hne]
    · intro hnone
      show (match msg.contentEncoding with
        | some ce' => if ce' ≠ "" then some (stripNonWord ce') else none
        | none => none) = none
      rw [hnone]

/-- Witness for the amended C10: an empty message 400s; a message with
content `[1]` and header `Content-Encoding: x-gzip!` streams the raw
bytes and announces `xgzip`. -/
theorem C10_flow_content_amended_witness :
    (FlowContent_get ⟨[], some "gzip", none⟩ "p" = .apiError 400 "No content.") ∧
    (∃ resp, FlowContent_get ⟨[1], some "x-gzip!", none⟩ "p" = .streamed resp ∧
      resp.body = [1] ∧
      resp.contentEncodingHeader = some "xgzip") := by
  constructor
  · exact (C10_flow_content_amended ⟨[], some "gzip", none⟩ "p").1 rfl
  · obtain ⟨resp, h1, h2, h3, -⟩ :=
      (C10_flow_content_amended ⟨[1], some "x-gzip!", none⟩ "p").2 (by decide)
    refine ⟨resp, h1, h2, ?_⟩
    have := h3 "x-gzip!" rfl (by decide)
    rw [this]
    rfl
